import Mathlib

/-!
Verification of the Temporal Query Resolution & Snapshot Discovery subsystem
of the wayback_ecommerce_chatbot repository.

The Python sources embedded here are:
  app/components/query_processor.py  (QueryProcessor)
  app/components/wayback_client.py   (WaybackClient)
  app/utils/error_handling.py        (retry_with_exponential_backoff)

Modelling conventions:
  - the calendar-date carrier is the proleptic Gregorian calendar with an
    integer year; every operation of the sources that constructs a Python
    date validates Python's year range MINYEAR..MAXYEAR = 1..9999 exactly
    where CPython does: date.replace inside relativedelta.__radd__ and the
    subsequent timedelta addition (dateAddRD), the date constructor
    (mkDateChecked), and date.fromisoformat (fromIsoDate). The locator's probe
    stepping (target_date + timedelta(days=offset)) is kept as the pure
    day-step addDays, per the approved locator embedding: its window is
    ±max_offset days around an in-range target and its claims quantify over
    the abstract probe environment;
  - dateutil.relativedelta values are embedded as records of relative fields
    (years, months, days; weeks are folded into days by the constructor, and
    months are normalised into years by relativedelta._fix, both exactly as in
    dateutil) plus optional absolute fields (year, month, day);
  - Python exceptions are an explicit error type; code that can raise is
    embedded in Except;
  - network collaborators (the Gemini call, the CDX index, the content fetch)
    are injected as parameters, mirroring the spec's injectable capabilities;
  - Python's re.search is embedded pattern-by-pattern: each concrete pattern of
    the source is compiled by hand into a leftmost-match scanner with the same
    backtracking behaviour (the patterns involved are simple enough that the
    greedy sub-matches are deterministic; this is argued at each matcher).
-/

namespace Wayback

/-- Python exception kinds that the embedded code can raise or catch.
`waybackError`, `snapshotNotFoundError`, `openAIError`, `connectionError` and
`timeoutError` are the kinds named in app/utils/error_handling.py;
`snapshotNotFoundError` is a subclass of `WaybackError` in the source.
`typeError` and `valueError` are the built-in exceptions reachable in the
embedded paths. -/
inductive PyExn
  | typeError
  | valueError
  | overflowError
  | waybackError
  | snapshotNotFoundError
  | openAIError
  | connectionError
  | timeoutError
deriving Repr, DecidableEq

/-- A calendar date (proleptic Gregorian), as Python's datetime.date. -/
structure Date where
  year : Int
  month : Nat
  day : Nat
deriving Repr, DecidableEq

/-- Gregorian leap-year rule (calendar.isleap). -/
def isLeapYear (y : Int) : Bool :=
  (y % 4 == 0) && (y % 100 != 0 || y % 400 == 0)

/-- Number of days in a month (calendar.monthrange(y, m)[1]). -/
def daysInMonth (y : Int) (m : Nat) : Nat :=
  if m == 2 then (if isLeapYear y then 29 else 28)
  else if m == 4 || m == 6 || m == 9 || m == 11 then 30
  else 31

/-- The day after `d` (one step of timedelta(days=1)). -/
def nextDay (d : Date) : Date :=
  if d.day < daysInMonth d.year d.month then ⟨d.year, d.month, d.day + 1⟩
  else if d.month < 12 then ⟨d.year, d.month + 1, 1⟩
  else ⟨d.year + 1, 1, 1⟩

/-- The day before `d` (one step of timedelta(days=-1)). -/
def prevDay (d : Date) : Date :=
  if 1 < d.day then ⟨d.year, d.month, d.day - 1⟩
  else if 1 < d.month then ⟨d.year, d.month - 1, daysInMonth d.year (d.month - 1)⟩
  else ⟨d.year - 1, 12, 31⟩

/-- `d + timedelta(days=n)`: dates form a torsor under days, stepped here one
day at a time, which agrees with Python's ordinal-based implementation. -/
def addDays (d : Date) (n : Int) : Date :=
  match n with
  | .ofNat k => Nat.iterate nextDay k d
  | .negSucc k => Nat.iterate prevDay (k + 1) d

/-- Days from the start of the year to the start of month `m`. -/
def daysBeforeMonth (y : Int) (m : Nat) : Nat :=
  ((List.range' 1 (m - 1)).map (daysInMonth y)).sum

/-- Python's date.toordinal (proleptic Gregorian day number, day 1 is
0001-01-01), extended to all integer years by floor division. -/
def toOrdinal (d : Date) : Int :=
  365 * (d.year - 1) + (d.year - 1).fdiv 4 - (d.year - 1).fdiv 100
    + (d.year - 1).fdiv 400 + (daysBeforeMonth d.year d.month : Int) + (d.day : Int)

/-- `(a - b).days` for two dates. -/
def daysBetween (a b : Date) : Int := toOrdinal a - toOrdinal b

/-- Python's `date.__lt__` (lexicographic on year, month, day). -/
def dateLt (a b : Date) : Bool :=
  decide (a.year < b.year) ||
    (a.year == b.year &&
      (decide (a.month < b.month) || (a.month == b.month && decide (a.day < b.day))))

/-- dateutil.relativedelta.relativedelta, restricted to the fields the source
uses: relative years/months/days (weeks already folded into days, months
already normalised by `_fix`) and absolute year/month/day. -/
structure RelDelta where
  years : Int := 0
  months : Int := 0
  days : Int := 0
  year : Option Int := none
  month : Option Nat := none
  day : Option Nat := none
deriving Repr, DecidableEq

/-- relativedelta(years=n). -/
def rdYears (n : Int) : RelDelta := { years := n }

/-- relativedelta(months=n) for a non-negative captured integer: `_fix` splits
months with absolute value above 12 into years via divmod. -/
def rdOfMonths (n : Nat) : RelDelta :=
  if 12 < n then { years := (n / 12 : Nat), months := (n % 12 : Nat) }
  else { months := (n : Int) }

/-- relativedelta(days=n) (also the folded form of relativedelta(weeks=k),
whose constructor stores days := days + weeks * 7). -/
def rdDays (n : Int) : RelDelta := { days := n }

/-- relativedelta(year=y, month=m, day=d) with absolute fields only. -/
def rdAbsolute (y : Int) (m : Nat) (d : Nat) : RelDelta :=
  { year := some y, month := some m, day := some d }

/-- Negation of a relativedelta (`__neg__`): relative fields are negated,
absolute fields are kept. -/
def rdNeg (rd : RelDelta) : RelDelta :=
  { rd with years := -rd.years, months := -rd.months, days := -rd.days }

/-- `date + relativedelta` (relativedelta.__radd__ via __add__): absolute
fields replace the date's components, then relative years are added, months
are added with a single year carry (the constructor guarantees |months| ≤ 12),
and the day is clamped to the target month's length (calendar.monthrange
accepts any integer year, so no raise yet). The subsequent
`other.replace(year=..., month=..., day=...)` validates the year against
Python's date range MINYEAR..MAXYEAR = 1..9999 and raises ValueError outside
it (the carried month is always 1..12 and the clamped day always valid);
finally the relative days are added as a timedelta, which raises OverflowError
when the result leaves the representable range. -/
def dateAddRD (d : Date) (rd : RelDelta) : Except PyExn Date :=
  let year0 : Int := (rd.year.getD d.year) + rd.years
  let month0 : Int := ((rd.month.getD d.month : Nat) : Int)
  let ym : Int × Int :=
    if rd.months != 0 then
      let m := month0 + rd.months
      if 12 < m then (year0 + 1, m - 12)
      else if m < 1 then (year0 - 1, m + 12)
      else (year0, m)
    else (year0, month0)
  let day := min (daysInMonth ym.1 ym.2.toNat) (rd.day.getD d.day)
  if 1 ≤ ym.1 ∧ ym.1 ≤ 9999 then
    let res := addDays ⟨ym.1, ym.2.toNat, day⟩ rd.days
    if 1 ≤ res.year ∧ res.year ≤ 9999 then .ok res
    else .error .overflowError
  else .error .valueError

/-- `date - relativedelta` (relativedelta.__rsub__ = (-self).__radd__(date)). -/
def dateSubRD (d : Date) (rd : RelDelta) : Except PyExn Date := dateAddRD d (rdNeg rd)

/-- `relativedelta - date`: relativedelta.__sub__ returns NotImplemented for a
non-relativedelta operand, and datetime.date's reflected subtraction accepts
only date and timedelta left operands, so Python raises TypeError. The source's
`_last_month_of_name` and `_last_season` evaluate exactly this expression. -/
def rdSubDate (_rd : RelDelta) (_d : Date) : Except PyExn RelDelta :=
  .error .typeError

/-- relativedelta._fix applied to a bare months value (as `_set_months` does in
the two-date constructor): split |months| > 12 into years by sign-adjusted
divmod, returning (years, months). -/
def setMonthsSplit (months : Int) : Int × Int :=
  if 12 < months.natAbs then
    let s : Int := if 0 ≤ months then 1 else -1
    (((months * s).toNat / 12 : Nat) * s, ((months * s).toNat % 12 : Nat) * s)
  else (0, months)

/-- The correction loop of relativedelta(dt1, dt2): starting from the raw month
difference, step the month count toward dt1 while dt2 shifted by it overshoots.
The shift is a real date addition, so an out-of-range intermediate year raises
as in dateAddRD. The fuel bounds the iteration count (the loop moves dtm
monotonically by one month per step, so |months0| + 2 steps always suffice). -/
def rdFromDatesLoop (dt1 dt2 : Date) (dt1LtDt2 : Bool) : Nat → Int → Except PyExn Int
  | 0, months => .ok months
  | fuel + 1, months =>
    let ym := setMonthsSplit months
    match dateAddRD dt2 { years := ym.1, months := ym.2 } with
    | .error e => .error e
    | .ok dtm =>
      let cont := if dt1LtDt2 then dateLt dtm dt1 else dateLt dt1 dtm
      if cont then
        rdFromDatesLoop dt1 dt2 dt1LtDt2 fuel (months + (if dt1LtDt2 then 1 else -1))
      else .ok months

/-- The two-date constructor relativedelta(dt1, dt2): month difference with the
dateutil correction loop, then the residual day count. -/
def rdFromDates (dt1 dt2 : Date) : Except PyExn RelDelta :=
  let months0 : Int := (dt1.year - dt2.year) * 12 + ((dt1.month : Int) - (dt2.month : Int))
  let lt12 := dateLt dt1 dt2
  match rdFromDatesLoop dt1 dt2 lt12 (months0.natAbs + 2) months0 with
  | .error e => .error e
  | .ok monthsF =>
    let ym := setMonthsSplit monthsF
    match dateAddRD dt2 { years := ym.1, months := ym.2 } with
    | .error e => .error e
    | .ok dtm => .ok { years := ym.1, months := ym.2, days := daysBetween dt1 dtm }

/-! ## String utilities (Python str operations, ASCII fragment) -/

/-- Python str.lower, character by character (the source only lowercases ASCII
query/content text; Char.toLower is the ASCII case map). -/
def lowerChars (cs : List Char) : List Char := cs.map Char.toLower

/-- Python's `pat in hay` substring containment. -/
def containsSub : List Char → List Char → Bool
  | hay, pat =>
    match hay with
    | [] => pat.isEmpty
    | _ :: rest => pat.isPrefixOf hay || containsSub rest pat

/-- Match a literal at the front of `cs`, returning the remainder. -/
def dropLit : List Char → List Char → Option (List Char)
  | cs, [] => some cs
  | [], _ :: _ => none
  | c :: cs, l :: ls => if c == l then dropLit cs ls else none

/-- Decimal value of a digit run (int() applied to a captured `\d+` group). -/
def digitsToNat (ds : List Char) : Nat :=
  ds.foldl (fun acc c => acc * 10 + (c.toNat - 48)) 0

/-! ## QueryProcessor: the time-pattern regexes

Each re.search of query_processor.py is embedded as a leftmost scanner. In
every pattern the greedy pieces are deterministic: a `\d+` (or `\s+`) run must
be followed by a character outside its class, so backtracking inside the run
can never succeed and the maximal run is the only candidate. -/

/-- Attempt `(\d+) UNITs? ago` at the start of `cs` (one literal space on each
side, optional trailing s on the unit), returning the captured integer. -/
def numUnitAt (cs unit : List Char) : Option Nat :=
  let p := cs.span Char.isDigit
  if p.1.isEmpty then none
  else
    match dropLit p.2 (' ' :: unit) with
    | none => none
    | some r1 =>
      match r1 with
      | 's' :: r2 =>
        if (dropLit r2 (' ' :: ('a' :: 'g' :: 'o' :: []))).isSome then some (digitsToNat p.1)
        else if (dropLit r1 (' ' :: ('a' :: 'g' :: 'o' :: []))).isSome then some (digitsToNat p.1)
        else none
      | _ =>
        if (dropLit r1 (' ' :: ('a' :: 'g' :: 'o' :: []))).isSome then some (digitsToNat p.1)
        else none

/-- re.search for `(\d+) UNITs? ago`: leftmost start position wins. -/
def searchNumUnit : List Char → List Char → Option Nat
  | [], _ => none
  | c :: rest, unit =>
    match numUnitAt (c :: rest) unit with
    | some n => some n
    | none => searchNumUnit rest unit

/-- Attempt `last (ALT1|ALT2|...)` at the start of `cs`: the literal `last `
followed by the first alternative (in listed order) that matches. -/
def lastAltAt (cs : List Char) (alts : List String) : Option String :=
  match dropLit cs ('l' :: 'a' :: 's' :: 't' :: ' ' :: []) with
  | none => none
  | some rest => alts.find? (fun a => (dropLit rest a.toList).isSome)

/-- re.search for `last (ALT1|ALT2|...)`: leftmost start position wins, and at
each position the alternatives are tried in listed order. -/
def searchLastAlt : List Char → List String → Option String
  | [], _ => none
  | c :: rest, alts =>
    match lastAltAt (c :: rest) alts with
    | some a => some a
    | none => searchLastAlt rest alts

/-- Month-name alternation of the `last (january|...|december)` pattern. -/
def monthNames : List String :=
  ["january", "february", "march", "april", "may", "june",
   "july", "august", "september", "october", "november", "december"]

/-- Season alternation of the `last (spring|summer|fall|autumn|winter)` pattern. -/
def seasonNames : List String := ["spring", "summer", "fall", "autumn", "winter"]

/-- Holiday alternation of the `last (black friday|...)` pattern. -/
def holidayNames : List String :=
  ["black friday", "cyber monday", "christmas", "easter", "valentine", "halloween"]

/-- The outcome of scanning the `time_patterns` dict in insertion order:
which pattern fired first, with its captured group. -/
inductive TimePattern
  | lastYear
  | lastMonth
  | lastWeek
  | yearsAgo (n : Nat)
  | monthsAgo (n : Nat)
  | weeksAgo (n : Nat)
  | daysAgo (n : Nat)
  | lastMonthName (name : String)
  | lastSeason (name : String)
  | lastHoliday (name : String)
deriving Repr, DecidableEq

/-- The first pattern of `self.time_patterns` that re.search finds in the
lowercased query (Python dicts iterate in insertion order). -/
def firstTimeMatch (ql : List Char) : Option TimePattern :=
  if containsSub ql ("last year".toList) then some .lastYear
  else if containsSub ql ("last month".toList) then some .lastMonth
  else if containsSub ql ("last week".toList) then some .lastWeek
  else
    match searchNumUnit ql ("year".toList) with
    | some n => some (.yearsAgo n)
    | none =>
    match searchNumUnit ql ("month".toList) with
    | some n => some (.monthsAgo n)
    | none =>
    match searchNumUnit ql ("week".toList) with
    | some n => some (.weeksAgo n)
    | none =>
    match searchNumUnit ql ("day".toList) with
    | some n => some (.daysAgo n)
    | none =>
    match searchLastAlt ql monthNames with
    | some nm => some (.lastMonthName nm)
    | none =>
    match searchLastAlt ql seasonNames with
    | some s => some (.lastSeason s)
    | none =>
    match searchLastAlt ql holidayNames with
    | some h => some (.lastHoliday h)
    | none => none

/-! ## QueryProcessor: the named-period rules -/

/-- QueryProcessor._last_month_of_name: picks this year's or last year's
occurrence of the named month and then evaluates
`relativedelta(year=..., month=..., day=15) - datetime.date.today()`,
which raises TypeError (see rdSubDate). -/
def lastMonthRd (name : String) (today : Date) : Except PyExn RelDelta :=
  let targetMonth := (monthNames.indexOf name) + 1
  if decide (targetMonth < today.month) then
    rdSubDate (rdAbsolute today.year targetMonth 15) today
  else
    rdSubDate (rdAbsolute (today.year - 1) targetMonth 15) today

/-- The seasons table of QueryProcessor._last_season. -/
def seasonBounds (s : String) : Nat × Nat :=
  if s == "spring" then (3, 5)
  else if s == "summer" then (6, 8)
  else if s == "fall" then (9, 11)
  else if s == "autumn" then (9, 11)
  else (12, 2)

/-- QueryProcessor._last_season: inside December–February, "last winter" is
relativedelta(years=1); every other branch evaluates
`relativedelta(...) - datetime.date.today()`, which raises TypeError. -/
def lastSeasonRd (season : String) (today : Date) : Except PyExn RelDelta :=
  let bounds := seasonBounds season
  if season == "winter" then
    if today.month == 12 || today.month == 1 || today.month == 2 then
      .ok (rdYears 1)
    else
      rdSubDate (rdAbsolute today.year 1 15) today
  else
    if decide (bounds.2 < today.month) then
      rdSubDate (rdAbsolute today.year bounds.1 15) today
    else
      rdSubDate (rdAbsolute (today.year - 1) bounds.1 15) today

/-- The fixed (month, day) table of QueryProcessor._last_holiday (easter has
no fixed date and is handled separately). -/
def holidayDates (h : String) : Option (Nat × Nat) :=
  if h == "black friday" then some (11, 25)
  else if h == "cyber monday" then some (11, 28)
  else if h == "christmas" then some (12, 25)
  else if h == "easter" then none
  else if h == "valentine" then some (2, 14)
  else some (10, 31)

/-- datetime.date(year, month, day): the constructor validates the year range
1..9999 and raises ValueError outside it (the month and day passed to it here
always come from the fixed holiday table, so only the year can fail). -/
def mkDateChecked (y : Int) (m dy : Nat) : Except PyExn Date :=
  if 1 ≤ y ∧ y ≤ 9999 then .ok ⟨y, m, dy⟩ else .error .valueError

/-- QueryProcessor._last_holiday: easter delegates to _last_month_of_name for
april (and therefore raises TypeError); fixed-date holidays pick this year's
or last year's occurrence and return relativedelta(current_date, holiday). -/
def lastHolidayRd (h : String) (today : Date) : Except PyExn RelDelta :=
  if h == "easter" then lastMonthRd ("april") today
  else
    match holidayDates h with
    | some md =>
      match mkDateChecked today.year md.1 md.2 with
      | .error e => .error e
      | .ok thisYearHoliday =>
        if dateLt today thisYearHoliday then
          match mkDateChecked (today.year - 1) md.1 md.2 with
          | .error e => .error e
          | .ok holidayDate => rdFromDates today holidayDate
        else rdFromDates today thisYearHoliday
    | none => rdFromDates today today

/-- The delta produced for the pattern that fired, as in the `time_patterns`
dict values (literal deltas or the lambdas over the captured group). -/
def deltaOfPattern (pat : TimePattern) (today : Date) : Except PyExn RelDelta :=
  match pat with
  | .lastYear => .ok (rdYears 1)
  | .lastMonth => .ok (rdOfMonths 1)
  | .lastWeek => .ok (rdDays 7)
  | .yearsAgo n => .ok (rdYears n)
  | .monthsAgo n => .ok (rdOfMonths n)
  | .weeksAgo n => .ok (rdDays (7 * n))
  | .daysAgo n => .ok (rdDays n)
  | .lastMonthName nm => lastMonthRd nm today
  | .lastSeason s => lastSeasonRd s today
  | .lastHoliday h => lastHolidayRd h today

/-! ## QueryProcessor: domain and focus extraction -/

/-- ASCII alphanumeric, the `[a-zA-Z0-9]` class of the domain regex. -/
def isAlnumChar (c : Char) : Bool := c.isAlpha || c.isDigit

/-- One `[a-zA-Z0-9][-a-zA-Z0-9]*\.` label at the start of `cs`: a class
character, a greedy run of class-or-hyphen characters, then a literal dot.
Deterministic: the greedy run only ends at a character outside the class, and
a dot is outside the class, so no backtracking inside the run can succeed. -/
def matchLabel (cs : List Char) : Option (List Char × List Char) :=
  match cs with
  | [] => none
  | c :: rest =>
    if isAlnumChar c then
      let p := rest.span (fun d => isAlnumChar d || d == '-')
      match p.2 with
      | '.' :: rest3 => some (c :: (p.1 ++ ['.']), rest3)
      | _ => none
    else none

/-- All the ways `(label)+` can match at the start of `cs`, shortest first:
entry k is (text of the first k+1 labels, remainder). Fuel is the input length,
which is ample since each label consumes at least two characters. -/
def labelChain : Nat → List Char → List (List Char × List Char)
  | 0, _ => []
  | fuel + 1, cs =>
    match matchLabel cs with
    | none => []
    | some (m, rest) =>
      (m, rest) :: (labelChain fuel rest).map (fun p => (m ++ p.1, p.2))

/-- The domain regex `([a-zA-Z0-9][-a-zA-Z0-9]*\.)+[a-zA-Z0-9]{2,}` anchored at
the start of `cs`, returning group(0): the greedy `+` tries the most labels
first, and the `{2,}` tail takes the maximal alphanumeric run, needing at
least two characters. -/
def domainAt (cs : List Char) : Option (List Char) :=
  (labelChain cs.length cs).reverse.findSome? (fun p =>
    let run := (p.2.span isAlnumChar).1
    if 2 ≤ run.length then some (p.1 ++ run) else none)

/-- re.search for the domain regex: leftmost start position wins. -/
def searchDomain : List Char → Option (List Char)
  | [] => none
  | c :: rest =>
    match domainAt (c :: rest) with
    | some m => some m
    | none => searchDomain rest

/-- Domain extraction of process_query (applied to the raw query, not the
lowercased one). -/
def extractDomain (q : String) : Option String :=
  (searchDomain q.toList).map (fun l => String.mk l)

/-- Keyword set for the promotions focus. -/
def promoTerms : List String := ["promo", "promotion", "offer", "discount", "sale"]

/-- Keyword set for the products focus. -/
def productTerms : List String := ["product", "range", "item", "selling"]

/-- Keyword set for the delivery focus. -/
def deliveryTerms : List String := ["delivery", "shipping", "fulfillment"]

/-- Focus classification of process_query: ordered containment checks against
the three keyword sets on the lowercased query. -/
def extractFocus (q : String) : Option String :=
  let ql := lowerChars q.toList
  if promoTerms.any (fun t => containsSub ql t.toList) then some "promotions"
  else if productTerms.any (fun t => containsSub ql t.toList) then some "products"
  else if deliveryTerms.any (fun t => containsSub ql t.toList) then some "delivery"
  else none

/-! ## QueryProcessor._infer_date_with_llm -/

/-- The `\s` class of Python's re module, ASCII fragment. -/
def isPySpace (c : Char) : Bool :=
  c == ' ' || c == '\t' || c == '\n' || c == '\x0d' || c == '\x0b' || c == '\x0c'

/-- The unit alternation `(year|month|week|day)` of the LLM-response regex, in
listed order. -/
def flexUnitNames : List String := ["year", "month", "week", "day"]

/-- After the unit of `(\d+)\s+(year|month|week|day)s?\s+ago`: optional greedy
s, then one or more whitespace characters, then the literal `ago`. -/
def wsAgo (cs : List Char) : Bool :=
  let p := cs.span isPySpace
  !p.1.isEmpty && (dropLit p.2 ('a' :: 'g' :: 'o' :: [])).isSome

/-- Greedy `s?` then `\s+ago`. -/
def flexAfterUnit (r1 : List Char) : Bool :=
  match r1 with
  | 's' :: r2 => wsAgo r2 || wsAgo r1
  | _ => wsAgo r1

/-- Attempt `(\d+)\s+(year|month|week|day)s?\s+ago` at the start of `cs`,
returning the captured integer and unit. -/
def flexMatchAt (cs : List Char) : Option (Nat × String) :=
  let p := cs.span Char.isDigit
  if p.1.isEmpty then none
  else
    let w := p.2.span isPySpace
    if w.1.isEmpty then none
    else
      (flexUnitNames.find? (fun u =>
        match dropLit w.2 u.toList with
        | some r2 => flexAfterUnit r2
        | none => false)).map (fun u => (digitsToNat p.1, u))

/-- re.search for the whitespace-flexible relative-phrase regex of
_infer_date_with_llm: leftmost start position wins. -/
def searchFlex : List Char → Option (Nat × String)
  | [] => none
  | c :: rest =>
    match flexMatchAt (c :: rest) with
    | some nu => some nu
    | none => searchFlex rest

/-- The unit dispatch of _infer_date_with_llm (if/elif chain on the captured
unit). The wildcard case is unreachable: the regex only captures the four
listed unit names. -/
def flexDelta (u : String) (n : Nat) : RelDelta :=
  if u == "year" then rdYears n
  else if u == "month" then rdOfMonths n
  else if u == "week" then rdDays (7 * n)
  else rdDays n

/-- Attempt `(\d{4}-\d{2}-\d{2})` at the start of `cs`, returning the three
digit groups (`{k}` is an exact count, so there is no backtracking). -/
def isoAt (cs : List Char) : Option (Nat × Nat × Nat) :=
  match cs with
  | a :: b :: c :: d :: '-' :: e :: f :: '-' :: g :: h :: _ =>
    if [a, b, c, d, e, f, g, h].all Char.isDigit then
      some (digitsToNat [a, b, c, d], digitsToNat [e, f], digitsToNat [g, h])
    else none
  | _ => none

/-- re.search for the ISO-date regex: leftmost start position wins. -/
def searchISO : List Char → Option (Nat × Nat × Nat)
  | [] => none
  | c :: rest =>
    match isoAt (c :: rest) with
    | some ymd => some ymd
    | none => searchISO rest

/-- Python's date.fromisoformat on a `\d{4}-\d{2}-\d{2}` match: validates year
(MINYEAR..MAXYEAR), month and day, raising ValueError otherwise. -/
def fromIsoDate (y mo dy : Nat) : Except PyExn Date :=
  if 1 ≤ y ∧ y ≤ 9999 ∧ 1 ≤ mo ∧ mo ≤ 12 ∧ 1 ≤ dy ∧ dy ≤ daysInMonth (y : Int) mo then
    .ok ⟨(y : Int), mo, dy⟩
  else .error .valueError

/-- The parsing body of _infer_date_with_llm applied to the (stripped) response
text: the relative-phrase sub-rule guarded by an `ago` containment check (its
subtraction is a real date operation and may raise for an out-of-range target),
then the ISO sub-rule (whose fromisoformat may raise), then the one-year
default subtraction. -/
def inferDateParse (text : String) (today : Date) : Except PyExn Date :=
  let lt := lowerChars text.toList
  let relStep : Option (Except PyExn Date) :=
    if containsSub lt ('a' :: 'g' :: 'o' :: []) then
      match searchFlex lt with
      | some nu => some (dateSubRD today (flexDelta nu.2 nu.1))
      | none => none
    else none
  match relStep with
  | some r => r
  | none =>
    match searchISO text.toList with
    | some ymd => fromIsoDate ymd.1 ymd.2.1 ymd.2.2
    | none => dateSubRD today (rdYears 1)

/-- QueryProcessor._infer_date_with_llm. The Gemini call is injected as
`llm : Except Unit String` (either a response text, already stripped, or any
failure). The whole body sits in a try/except that converts every raised
exception into the one-year-ago default; the except branch re-evaluates
`datetime.date.today() - relativedelta(years=1)` outside any try, so its
result (for an ordinary clock, a date) is returned as is. -/
def inferDateWithLLM (llm : Except Unit String) (today : Date) : Except PyExn Date :=
  match llm with
  | .error _ => dateSubRD today (rdYears 1)
  | .ok text =>
    match inferDateParse text today with
    | .ok d => .ok d
    | .error _ => dateSubRD today (rdYears 1)

/-! ## QueryProcessor.process_query -/

/-- The result dict of process_query. -/
structure PResult where
  domain : Option String
  targetDate : Option Date
  focus : Option String
  originalQuery : String
deriving Repr, DecidableEq

/-- QueryProcessor.process_query with the ambient clock (`datetime.date.today`)
and the Gemini collaborator passed explicitly. Exceptions escaping the body
(the date-resolution lambdas are not wrapped in any try/except) surface as
`.error`. -/
def processQuery (q : String) (today : Date) (llm : Except Unit String)
    (customDate : Option Date) : Except PyExn PResult :=
  let domain := extractDomain q
  let focus := extractFocus q
  match customDate with
  | some d => .ok { domain := domain, targetDate := some d, focus := focus, originalQuery := q }
  | none =>
    match firstTimeMatch (lowerChars q.toList) with
    | some pat =>
      match deltaOfPattern pat today with
      | .ok delta =>
        match dateSubRD today delta with
        | .ok dt =>
          .ok { domain := domain, targetDate := some dt,
                focus := focus, originalQuery := q }
        | .error e => .error e
      | .error e => .error e
    | none =>
      match inferDateWithLLM llm today with
      | .ok dt =>
        .ok { domain := domain, targetDate := some dt,
              focus := focus, originalQuery := q }
      | .error e => .error e

/-! ## WaybackClient -/

/-- Outcome of one CDX index query (requests.get of the cdx_url plus the JSON
parse), abstracting the HTTP collaborator for a given probe date:
a data row beyond the header (a hit), a header-only response, a non-200
status, or a raised transport/parse exception. -/
inductive CdxOutcome
  | hit (timestamp original : String)
  | empty
  | httpError (status : Nat)
  | exn
deriving Repr, DecidableEq

/-- Whether the outcome is a hit (len(data) > 1 after a 200 response). -/
def CdxOutcome.isHit : CdxOutcome → Bool
  | .hit _ _ => true
  | _ => false

/-- Network side effects of the client, for stating what the locator fetches:
a CDX index query for a probe date, or a snapshot content fetch. -/
inductive ArchiveEffect
  | cdxQuery (d : Date)
  | contentFetch (timestamp original : String)
deriving Repr, DecidableEq

/-- Whether an effect is a CDX index query. -/
def ArchiveEffect.isCdxQuery : ArchiveEffect → Bool
  | .cdxQuery _ => true
  | .contentFetch _ _ => false

/-- The offsets list as built by find_snapshot_for_date before sorting:
`offsets = [0]`, then for i in range(1, max_offset + 1) append i and -i. -/
def offsetsUpTo : Nat → List Int
  | 0 => [0]
  | i + 1 => offsetsUpTo i ++ [((i + 1 : Nat) : Int), -((i + 1 : Nat) : Int)]

/-- `offsets.sort(key=abs)`. CPython's list.sort is a stable sort; every stable
sort computes the same list, embedded here as stable insertion by absolute
value. -/
def insAbs (x : Int) : List Int → List Int
  | [] => [x]
  | y :: ys => if y.natAbs < x.natAbs then y :: insAbs x ys else x :: y :: ys

/-- Stable sort of the offsets by absolute value (see insAbs). -/
def sortAbs (l : List Int) : List Int := l.foldr insAbs []

/-- The probe loop of find_snapshot_for_date over a list of offsets, with the
trace of index queries it issues. Each iteration queries the CDX index for
target_date + offset; a hit returns (timestamp, original, test_date) at once;
a header-only response, a non-200 status, and a caught exception all fall
through to the next offset. The loop body contains no content fetch. -/
def findLoopTr (probe : Date → CdxOutcome) (target : Date) :
    List Int → Option (String × String × Date) × List ArchiveEffect
  | [] => (none, [])
  | o :: rest =>
    let testDate := addDays target o
    match probe testDate with
    | .hit ts orig => (some (ts, orig, testDate), [ArchiveEffect.cdxQuery testDate])
    | _ =>
      let r := findLoopTr probe target rest
      (r.1, ArchiveEffect.cdxQuery testDate :: r.2)

/-- WaybackClient.find_snapshot_for_date (value part): builds the offsets list,
sorts it by absolute value, and runs the probe loop. Returns the None triple
(here `none`) when every offset is exhausted. The cache and retry decorators
wrapping it are identities on a cache miss, and the body never raises (every
per-probe exception is caught inside the loop). -/
def findSnapshotForDate (probe : Date → CdxOutcome) (target : Date) (maxOffset : Nat) :
    Option (String × String × Date) :=
  (findLoopTr probe target (sortAbs (offsetsUpTo maxOffset))).1

/-- The trace of network effects performed by find_snapshot_for_date. -/
def findSnapshotEffects (probe : Date → CdxOutcome) (target : Date) (maxOffset : Nat) :
    List ArchiveEffect :=
  (findLoopTr probe target (sortAbs (offsetsUpTo maxOffset))).2

/-- Outcome of the one requests.get of get_snapshot_content: a response with
its status code and body text, or a raised transport exception. -/
inductive FetchResult
  | ok (status : Nat) (body : String)
  | exn
deriving Repr, DecidableEq

/-- The document-root marker checked by get_snapshot_content. -/
def htmlMarker : List Char := '<' :: 'h' :: 't' :: 'm' :: 'l' :: []

/-- WaybackClient.get_snapshot_content (value part): the body is returned only
when the status is 200 and `content and len(content) > 500 and "<html" in
content.lower()`; every other outcome, including a raised exception, yields
None. -/
def getSnapshotContent (r : FetchResult) : Option String :=
  match r with
  | .ok status body =>
    if status == 200 then
      if !(body == "") && decide (500 < body.length)
          && containsSub (lowerChars body.toList) htmlMarker then
        some body
      else none
    else none
  | .exn => none

/-- get_snapshot_content with its network trace: exactly one content fetch. -/
def getSnapshotContentTr (timestamp original : String) (r : FetchResult) :
    Option String × List ArchiveEffect :=
  (getSnapshotContent r, [ArchiveEffect.contentFetch timestamp original])

/-- The bytes urllib.parse.quote never escapes (letters, digits, `_.-~`). -/
def alwaysSafeByte (b : UInt8) : Bool :=
  (decide (65 ≤ b.toNat) && decide (b.toNat ≤ 90))
    || (decide (97 ≤ b.toNat) && decide (b.toNat ≤ 122))
    || (decide (48 ≤ b.toNat) && decide (b.toNat ≤ 57))
    || b.toNat == 95 || b.toNat == 46 || b.toNat == 45 || b.toNat == 126

/-- Uppercase hexadecimal digit, as used by urllib.parse.quote. -/
def hexDigitChar (n : Nat) : Char :=
  if n < 10 then Char.ofNat (48 + n) else Char.ofNat (55 + n)

/-- Percent-encoding of one UTF-8 byte under quote(s, safe=''). -/
def quoteByte (b : UInt8) : List Char :=
  if alwaysSafeByte b then [Char.ofNat b.toNat]
  else ['%', hexDigitChar (b.toNat / 16), hexDigitChar (b.toNat % 16)]

/-- urllib.parse.quote(s, safe=''): percent-encode every UTF-8 byte outside
the always-safe set. -/
def pyQuoteEmptySafe (s : String) : String :=
  String.mk (s.toUTF8.toList.flatMap quoteByte)

/-- The constructor state of a WaybackClient instance. -/
structure ClientConfig where
  cacheEnabled : Bool
  maxRetries : Nat
deriving Repr, DecidableEq

/-- WaybackClient.get_wayback_url. The method reads no instance state and
performs no I/O; the config and the ambient fetch environment (outcomes of any
content fetches) are passed so that independence from them is statable. -/
def getWaybackUrl (_cfg : ClientConfig) (_fetchEnv : String → String → FetchResult)
    (timestamp originalUrl : String) : String :=
  "https://web.archive.org/web/" ++ timestamp ++ "/" ++ pyQuoteEmptySafe originalUrl

/-! ## retry_with_exponential_backoff -/

/-- The allow-list of the retry wrapper:
`except (WaybackError, OpenAIError, ConnectionError, TimeoutError)`.
SnapshotNotFoundError is a subclass of WaybackError, so it is caught too. -/
def isTransientExn : PyExn → Bool
  | .waybackError => true
  | .snapshotNotFoundError => true
  | .openAIError => true
  | .connectionError => true
  | .timeoutError => true
  | _ => false

/-- The `while True` loop of the retry wrapper. The wrapped operation is
injected as the outcome of each attempt (`op k` is what the k-th call returns
or raises). `remaining = max_retries - num_retries`: a transient failure with
none remaining corresponds to `num_retries > max_retries` after the increment
and re-raises; otherwise the loop sleeps (timing is not modelled) and retries.
A non-allow-listed exception is not caught and propagates at once. -/
def retryLoop {α : Type} (op : Nat → Except PyExn α) : Nat → Nat → Except PyExn α
  | attempt, remaining =>
    match op attempt with
    | .ok a => .ok a
    | .error e =>
      if isTransientExn e then
        match remaining with
        | 0 => .error e
        | r + 1 => retryLoop op (attempt + 1) r
      else .error e

/-- retry_with_exponential_backoff(max_retries)(func): run the loop starting at
attempt 0 with the full retry budget. -/
def retryWithExponentialBackoff {α : Type} (op : Nat → Except PyExn α)
    (maxRetries : Nat) : Except PyExn α :=
  retryLoop op 0 maxRetries

/-! ## Spec-side definitions -/

/-- The candidate offset sequence as the spec words it: `0, +1, −1, +2, −2, …,
+max_offset_days, −max_offset_days` — sorted by absolute distance from zero,
same-distance ties broken forward-before-backward. -/
def specRing (m : Nat) : List Int :=
  0 :: (List.range' 1 m).flatMap (fun i => [(i : Int), -(i : Int)])

/-! ## Lemmas about the locator's offset construction -/

theorem offsetsUpTo_natAbs_le (m : Nat) : ∀ x ∈ offsetsUpTo m, x.natAbs ≤ m := by
  induction m with
  | zero =>
    intro x hx
    simp only [offsetsUpTo, List.mem_singleton] at hx
    simp [hx]
  | succ m ih =>
    intro x hx
    simp only [offsetsUpTo, List.mem_append, List.mem_cons, List.mem_singleton,
      List.not_mem_nil, or_false] at hx
    rcases hx with h | h | h
    · exact le_trans (ih x h) (Nat.le_succ m)
    · subst h; omega
    · subst h; omega

theorem offsetsUpTo_pairwise (m : Nat) :
    (offsetsUpTo m).Pairwise (fun a b => a.natAbs ≤ b.natAbs) := by
  induction m with
  | zero => simp [offsetsUpTo]
  | succ m ih =>
    rw [offsetsUpTo, List.pairwise_append]
    refine ⟨ih, ?_, ?_⟩
    · refine List.pairwise_cons.mpr ⟨?_, by simp⟩
      intro b hb
      simp only [List.mem_singleton] at hb
      subst hb
      omega
    · intro a ha b hb
      have h1 := offsetsUpTo_natAbs_le m a ha
      simp only [List.mem_cons, List.mem_singleton, List.not_mem_nil, or_false] at hb
      have hb2 : b.natAbs = m + 1 := by rcases hb with rfl | rfl <;> omega
      omega

theorem insAbs_of_le (x : Int) (l : List Int) (h : ∀ y ∈ l, x.natAbs ≤ y.natAbs) :
    insAbs x l = x :: l := by
  cases l with
  | nil => rfl
  | cons y ys =>
    have hy : ¬ (y.natAbs < x.natAbs) := by
      have := h y (List.mem_cons_self y ys)
      omega
    simp [insAbs, hy]

theorem sortAbs_of_pairwise :
    ∀ l : List Int, l.Pairwise (fun a b => a.natAbs ≤ b.natAbs) → sortAbs l = l := by
  intro l
  induction l with
  | nil => intro _; rfl
  | cons x xs ih =>
    intro h
    rw [List.pairwise_cons] at h
    have hs : sortAbs (x :: xs) = insAbs x (sortAbs xs) := rfl
    rw [hs, ih h.2, insAbs_of_le x xs h.1]

theorem offsetsUpTo_eq_specRing (m : Nat) : offsetsUpTo m = specRing m := by
  induction m with
  | zero => rfl
  | succ m ih =>
    rw [offsetsUpTo, ih, specRing, specRing, List.range'_concat, List.flatMap_append]
    have h1 : 1 + 1 * m = m + 1 := by omega
    rw [h1]
    simp

/-- The sorted probe list of the source equals the spec's expanding-ring
sequence: the constructed list is already ordered by absolute value with the
positive offset of each distance first, so the stable sort keeps it as is. -/
theorem sortAbs_offsets_eq_specRing (m : Nat) : sortAbs (offsetsUpTo m) = specRing m := by
  rw [sortAbs_of_pairwise _ (offsetsUpTo_pairwise m), offsetsUpTo_eq_specRing]

theorem findLoopTr_fst_eq_of_find? (probe : Date → CdxOutcome) (target : Date) :
    ∀ (os : List Int) (o : Int) (ts orig : String),
      os.find? (fun x => (probe (addDays target x)).isHit) = some o →
      probe (addDays target o) = .hit ts orig →
      (findLoopTr probe target os).1 = some (ts, orig, addDays target o) := by
  intro os
  induction os with
  | nil =>
    intro o ts orig hf _
    simp [List.find?] at hf
  | cons x rest ih =>
    intro o ts orig hf hp
    rw [List.find?_cons] at hf
    cases hx : (probe (addDays target x)).isHit with
    | true =>
      rw [hx] at hf
      have hxo : x = o := by simpa using hf
      subst hxo
      cases hpx : probe (addDays target x) with
      | hit a b =>
        rw [hpx] at hp
        cases hp
        simp [findLoopTr, hpx]
      | empty => rw [hpx] at hx; simp [CdxOutcome.isHit] at hx
      | httpError s => rw [hpx] at hx; simp [CdxOutcome.isHit] at hx
      | exn => rw [hpx] at hx; simp [CdxOutcome.isHit] at hx
    | false =>
      rw [hx] at hf
      cases hpx : probe (addDays target x) with
      | hit a b => rw [hpx] at hx; simp [CdxOutcome.isHit] at hx
      | empty => simp only [findLoopTr, hpx]; exact ih o ts orig hf hp
      | httpError s => simp only [findLoopTr, hpx]; exact ih o ts orig hf hp
      | exn => simp only [findLoopTr, hpx]; exact ih o ts orig hf hp

theorem findLoopTr_fst_none (probe : Date → CdxOutcome) (target : Date) :
    ∀ os : List Int, (∀ o ∈ os, (probe (addDays target o)).isHit = false) →
      (findLoopTr probe target os).1 = none := by
  intro os
  induction os with
  | nil => intro _; rfl
  | cons x rest ih =>
    intro h
    have hx := h x (List.mem_cons_self x rest)
    cases hpx : probe (addDays target x) with
    | hit a b => rw [hpx] at hx; simp [CdxOutcome.isHit] at hx
    | empty =>
      simp only [findLoopTr, hpx]
      exact ih (fun o ho => h o (List.mem_cons_of_mem x ho))
    | httpError s =>
      simp only [findLoopTr, hpx]
      exact ih (fun o ho => h o (List.mem_cons_of_mem x ho))
    | exn =>
      simp only [findLoopTr, hpx]
      exact ih (fun o ho => h o (List.mem_cons_of_mem x ho))

theorem findLoopTr_effects_cdx (probe : Date → CdxOutcome) (target : Date) :
    ∀ os : List Int, ∀ e ∈ (findLoopTr probe target os).2, e.isCdxQuery = true := by
  intro os
  induction os with
  | nil => intro e he; simp [findLoopTr] at he
  | cons x rest ih =>
    intro e he
    cases hpx : probe (addDays target x) with
    | hit a b =>
      simp only [findLoopTr, hpx, List.mem_singleton] at he
      subst he; rfl
    | empty =>
      simp only [findLoopTr, hpx, List.mem_cons] at he
      rcases he with rfl | he
      · rfl
      · exact ih e he
    | httpError s =>
      simp only [findLoopTr, hpx, List.mem_cons] at he
      rcases he with rfl | he
      · rfl
      · exact ih e he
    | exn =>
      simp only [findLoopTr, hpx, List.mem_cons] at he
      rcases he with rfl | he
      · rfl
      · exact ih e he

/-! ## Lemmas about the retry loop -/

theorem retryLoop_step {α : Type} (op : Nat → Except PyExn α) (i r : Nat) (e : PyExn)
    (he : op i = .error e) (ht : isTransientExn e = true) :
    retryLoop op i (r + 1) = retryLoop op (i + 1) r := by
  rw [retryLoop, he]
  simp [ht]

theorem retryLoop_shift {α : Type} (op : Nat → Except PyExn α) :
    ∀ (k i r : Nat), k ≤ r →
      (∀ j, j < k → ∃ e, op (i + j) = .error e ∧ isTransientExn e = true) →
      retryLoop op i r = retryLoop op (i + k) (r - k) := by
  intro k
  induction k with
  | zero => intro i r _ _; simp
  | succ k ih =>
    intro i r hk h
    obtain ⟨e, he, ht⟩ := h 0 (Nat.succ_pos k)
    rw [Nat.add_zero] at he
    obtain ⟨r', rfl⟩ : ∃ r', r = r' + 1 := ⟨r - 1, by omega⟩
    rw [retryLoop_step op i r' e he ht]
    have h2 : ∀ j, j < k → ∃ e2, op (i + 1 + j) = .error e2 ∧ isTransientExn e2 = true := by
      intro j hj
      obtain ⟨e2, he2, ht2⟩ := h (j + 1) (by omega)
      exact ⟨e2, by rw [show i + 1 + j = i + (j + 1) by omega]; exact he2, ht2⟩
    rw [ih (i + 1) r' (by omega) h2]
    have e1 : i + 1 + k = i + (k + 1) := by omega
    have e2 : r' - k = r' + 1 - (k + 1) := by omega
    rw [e1, e2]

/-- C9: the retry wrapper retries the wrapped operation only on the fixed
transient allow-list (WaybackError and its subclass SnapshotNotFoundError,
OpenAIError, ConnectionError, TimeoutError), making at most max_retries + 1
attempts in total. Attempt outcomes are injected as `op`. Part 1: if the first
k attempts fail transiently (k ≤ max_retries) and attempt k succeeds, the
wrapper returns that success. Part 2: if after a transient prefix an attempt
raises a non-allow-listed error, it propagates at once (with k = 0: without
any retry). Part 3: if every attempt up to max_retries fails transiently,
retries are exhausted and the last error is re-raised to the caller. -/
theorem c9_retry_allowlist_policy {α : Type} (op : Nat → Except PyExn α) (m : Nat) :
    (∀ k a, k ≤ m → (∀ j, j < k → ∃ e, op j = .error e ∧ isTransientExn e = true) →
        op k = .ok a → retryWithExponentialBackoff op m = .ok a) ∧
    (∀ k e, k ≤ m → (∀ j, j < k → ∃ e2, op j = .error e2 ∧ isTransientExn e2 = true) →
        op k = .error e → isTransientExn e = false →
        retryWithExponentialBackoff op m = .error e) ∧
    ((∀ j, j ≤ m → ∃ e, op j = .error e ∧ isTransientExn e = true) →
        ∃ e, op m = .error e ∧ retryWithExponentialBackoff op m = .error e) := by
  have hshift : ∀ k, k ≤ m →
      (∀ j, j < k → ∃ e, op j = .error e ∧ isTransientExn e = true) →
      retryWithExponentialBackoff op m = retryLoop op k (m - k) := by
    intro k hk h
    rw [retryWithExponentialBackoff, retryLoop_shift op k 0 m hk ?hp]
    · rw [Nat.zero_add]
    · intro j hj
      obtain ⟨e, he, ht⟩ := h j hj
      exact ⟨e, by rw [Nat.zero_add]; exact he, ht⟩
  refine ⟨?_, ?_, ?_⟩
  · intro k a hk h hok
    rw [hshift k hk h, retryLoop, hok]
  · intro k e hk h herr hfalse
    rw [hshift k hk h, retryLoop, herr]
    simp [hfalse]
  · intro h
    obtain ⟨e, he, ht⟩ := h m (Nat.le_refl m)
    refine ⟨e, he, ?_⟩
    rw [hshift m (Nat.le_refl m) (fun j hj => h j (Nat.le_of_lt hj)), Nat.sub_self,
      retryLoop, he]
    simp [ht]

/-- The operation used by the C9 witness: one transient connection failure,
then success. -/
def c9Op : Nat → Except PyExn String :=
  fun j => if j == 0 then .error .connectionError else .ok "done"

/-- Witness for C9: with max_retries = 3, one transient failure followed by a
success yields the success. -/
theorem c9_retry_allowlist_policy_witness :
    retryWithExponentialBackoff c9Op 3 = .ok "done" := by
  refine (c9_retry_allowlist_policy c9Op 3).1 1 ("done") (by decide) ?_ rfl
  intro j hj
  have hj0 : j = 0 := by omega
  subst hj0
  exact ⟨.connectionError, rfl, rfl⟩

/-- A relative-time unit of the quantified `N <unit> ago` patterns. -/
inductive TimeUnit
  | years
  | months
  | weeks
  | days
deriving Repr, DecidableEq

/-- The quantified time_patterns entry for a unit, with its captured integer. -/
def quantPattern : TimeUnit → Nat → TimePattern
  | .years, n => .yearsAgo n
  | .months, n => .monthsAgo n
  | .weeks, n => .weeksAgo n
  | .days, n => .daysAgo n

/-- The calendar-respecting offset of N units under relativedelta semantics:
years and months are calendar offsets (month arithmetic with year carry and
end-of-month clamping), weeks are 7 N days, days are N days. -/
def calendarOffset : TimeUnit → Nat → RelDelta
  | .years, n => rdYears n
  | .months, n => rdOfMonths n
  | .weeks, n => rdDays (7 * n)
  | .days, n => rdDays n

/-- The query of the C3 counterexample. -/
def c3BadQuery : String := "10000 years ago"

/-- C3 counterexample: the for-every-N claim fails on the program. The query
"10000 years ago" matches the quantified pattern with N = 10000, but from
2024-05-10 the target year 2024 − 10000 = −7976 is outside Python's date range
1..9999, so date.replace inside relativedelta.__radd__ raises ValueError and
process_query, which has no try/except around the cascade, propagates it to
the caller instead of resolving to a date. -/
theorem c3_out_of_range_counterexample :
    firstTimeMatch (lowerChars c3BadQuery.toList) = some (.yearsAgo 10000) ∧
      processQuery c3BadQuery ⟨2024, 5, 10⟩ (.error ()) none = .error .valueError :=
  ⟨rfl, rfl⟩

/-- C3 (amended): for every non-negative integer N and unit, a query that the
cascade resolves through the `N <unit> ago` pattern (that pattern is the first
match of the time_patterns scan) gets target date exactly `now` minus the
calendar-respecting relativedelta offset of N units — not a fixed day count —
whenever that subtraction stays within Python's representable date range
(years 1..9999, the hypothesis hok); when it leaves the range, process_query
raises instead of resolving (see the counterexample). -/
theorem c3_quantified_ago (q : String) (today : Date) (llm : Except Unit String)
    (u : TimeUnit) (n : Nat) (dt : Date)
    (h : firstTimeMatch (lowerChars q.toList) = some (quantPattern u n))
    (hok : dateSubRD today (calendarOffset u n) = .ok dt) :
    processQuery q today llm none =
      .ok { domain := extractDomain q, targetDate := some dt,
            focus := extractFocus q, originalQuery := q } := by
  cases u <;>
    (simp only [quantPattern] at h;
     simp only [calendarOffset] at hok;
     simp only [processQuery, h, deltaOfPattern, hok])

/-- The query of the C3 witness. -/
def c3Query : String := "3 months ago"

/-- Witness for C3: "3 months ago" from 2024-03-31 resolves to 2023-12-31
(a calendar month offset with end-of-month clamping, not 90 days). -/
theorem c3_quantified_ago_witness :
    processQuery c3Query ⟨2024, 3, 31⟩ (.error ()) none =
      .ok { domain := none, targetDate := some ⟨2023, 12, 31⟩,
            focus := none, originalQuery := c3Query } := by
  rw [c3_quantified_ago c3Query ⟨2024, 3, 31⟩ (.error ()) .months 3 ⟨2023, 12, 31⟩
    (by decide) (by rfl)]
  rfl

/-- The response text parses as a relative phrase: the `ago` containment check
followed by the relative-phrase regex, as in _infer_date_with_llm. -/
def relPhraseParse (t : String) : Option (Nat × String) :=
  if containsSub (lowerChars t.toList) ('a' :: 'g' :: 'o' :: []) then
    searchFlex (lowerChars t.toList)
  else none

/-- The response text parses as an ISO calendar date: the ISO regex followed by
a successful date.fromisoformat. -/
def isoDateParse (t : String) : Option Date :=
  match searchISO t.toList with
  | some ymd => (fromIsoDate ymd.1 ymd.2.1 ymd.2.2).toOption
  | none => none

/-- When the response parses as neither a relative phrase nor an ISO calendar
date, the parsing body either evaluates the one-year default subtraction or
raises (an invalid ISO-shaped date), and a raise is absorbed by the enclosing
try/except, which then evaluates the same default subtraction. -/
theorem inferDateParse_default (t : String) (today : Date)
    (hrel : relPhraseParse t = none) (hiso : isoDateParse t = none) :
    inferDateParse t today = dateSubRD today (rdYears 1) ∨
      ∃ e, inferDateParse t today = .error e := by
  rw [relPhraseParse] at hrel
  rw [isoDateParse] at hiso
  simp only [inferDateParse]
  by_cases hc : containsSub (lowerChars t.toList) ('a' :: 'g' :: 'o' :: []) = true
  · rw [if_pos hc] at hrel
    rw [if_pos hc, hrel]
    cases hsi : searchISO t.toList with
    | none => left; simp
    | some ymd =>
      rw [hsi] at hiso
      cases hfi : fromIsoDate ymd.1 ymd.2.1 ymd.2.2 with
      | ok d => simp [hfi, Except.toOption] at hiso
      | error e => right; exact ⟨e, by simp [hfi]⟩
  · rw [if_neg hc]
    cases hsi : searchISO t.toList with
    | none => left; simp
    | some ymd =>
      rw [hsi] at hiso
      cases hfi : fromIsoDate ymd.1 ymd.2.1 ymd.2.2 with
      | ok d => simp [hfi, Except.toOption] at hiso
      | error e => right; exact ⟨e, by simp [hfi]⟩

/-- C7: if the inference capability fails for any reason, or its response
parses as neither a relative phrase nor an ISO calendar date, the date
inferred for the query is exactly one year before the current date (the
one-year default subtraction), and no error beyond that default's own
evaluation is surfaced: every failure inside the try body is absorbed by the
except branch, which returns the same default. -/
theorem c7_inference_default (llm : Except Unit String) (today : Date)
    (h : llm = .error () ∨
      ∃ t, llm = .ok t ∧ relPhraseParse t = none ∧ isoDateParse t = none) :
    inferDateWithLLM llm today = dateSubRD today (rdYears 1) := by
  rcases h with rfl | ⟨t, rfl, hrel, hiso⟩
  · rfl
  · simp only [inferDateWithLLM]
    rcases inferDateParse_default t today hrel hiso with hp | ⟨e, hp⟩
    · rw [hp]
      cases hdx : dateSubRD today (rdYears 1) with
      | ok d => rfl
      | error e2 => rfl
    · rw [hp]

/-- Witness for C7: a failing inference capability yields now minus one year. -/
theorem c7_inference_default_witness :
    inferDateWithLLM (.error ()) ⟨2024, 5, 10⟩ = dateSubRD ⟨2024, 5, 10⟩ (rdYears 1) :=
  c7_inference_default (.error ()) ⟨2024, 5, 10⟩ (Or.inl rfl)

/-! ## Claim theorems for the locator -/

/-- C2: for every probe environment, target date and max_offset_days, the
locator scans candidate dates in exactly the spec's expanding-ring order
(specRing: offsets 0, +1, −1, …, ±max, sorted by absolute distance with
same-distance ties broken forward-before-backward) and returns the capture of
the first offset in that order whose index query hits, never a later one: if
`o` is the first offset of specRing whose probe is a hit, the result is
exactly that offset's capture. -/
theorem c2_expanding_ring_order (probe : Date → CdxOutcome) (target : Date)
    (maxOffset : Nat) (o : Int) (ts orig : String)
    (hfind : (specRing maxOffset).find? (fun x => (probe (addDays target x)).isHit) = some o)
    (hhit : probe (addDays target o) = .hit ts orig) :
    findSnapshotForDate probe target maxOffset = some (ts, orig, addDays target o) := by
  rw [findSnapshotForDate, sortAbs_offsets_eq_specRing]
  exact findLoopTr_fst_eq_of_find? probe target _ o ts orig hfind hhit

/-- The capture id returned by the C2 witness probe. -/
def c2Ts : String := "20240511000000"

/-- The archived URL returned by the C2 witness probe. -/
def c2Url : String := "http://example.com/"

/-- The C2 witness probe: index hits exactly one day after and one day before
the target, so the tie at distance 1 is broken forward. -/
def c2Probe : Date → CdxOutcome := fun d =>
  if d == Date.mk 2024 5 11 || d == Date.mk 2024 5 9 then .hit c2Ts c2Url
  else .empty

/-- Witness for C2: with hits at offsets +1 and −1 only and max offset 2, the
locator returns the +1 capture. -/
theorem c2_expanding_ring_order_witness :
    findSnapshotForDate c2Probe ⟨2024, 5, 10⟩ 2 = some (c2Ts, c2Url, Date.mk 2024 5 11) :=
  c2_expanding_ring_order c2Probe ⟨2024, 5, 10⟩ 2 1 c2Ts c2Url (by decide) (by decide)

/-- C6: if every offset of the window produces no index hit, the locator
returns the absent triple without signalling an error, and its network trace
consists of CDX index queries only — it performs no content fetch. -/
theorem c6_exhausted_window_absent (probe : Date → CdxOutcome) (target : Date)
    (maxOffset : Nat)
    (h : ∀ o ∈ specRing maxOffset, (probe (addDays target o)).isHit = false) :
    findSnapshotForDate probe target maxOffset = none ∧
      ∀ e ∈ findSnapshotEffects probe target maxOffset, e.isCdxQuery = true := by
  constructor
  · rw [findSnapshotForDate, sortAbs_offsets_eq_specRing]
    exact findLoopTr_fst_none probe target _ h
  · intro e he
    rw [findSnapshotEffects] at he
    exact findLoopTr_effects_cdx probe target _ e he

/-- The C6 witness probe: the index never hits. -/
def c6Probe : Date → CdxOutcome := fun _ => .empty

/-- Witness for C6: an always-missing index yields the absent result and a
trace of index queries only. -/
theorem c6_exhausted_window_absent_witness :
    findSnapshotForDate c6Probe ⟨2023, 2, 28⟩ 1 = none ∧
      ∀ e ∈ findSnapshotEffects c6Probe ⟨2023, 2, 28⟩ 1, e.isCdxQuery = true :=
  c6_exhausted_window_absent c6Probe ⟨2023, 2, 28⟩ 1 (by decide)

/-! ## Claim theorems for the resolver cascade -/

/-- The query of the C1 failing input. -/
def c1Query : String := "last january"

/-- C1 (code bug): the claim says process_query never raises, but the
named-month branch does. On the query "last january" (no custom date) the
cascade reaches `_last_month_of_name`, which evaluates
`relativedelta(year=..., month=1, day=15) - datetime.date.today()`; that
subtraction is unsupported (relativedelta.__sub__ only accepts a relativedelta
and date has no reflected subtraction for it), so process_query propagates a
TypeError to the caller instead of producing a date. The same slip is reached
by every `last <month>` query, by `last <season>` queries outside the
in-winter branch, and by `last easter`. -/
theorem c1_last_january_raises :
    processQuery c1Query ⟨2024, 3, 10⟩ (.error ()) none = .error .typeError := by
  rfl

/-- The query of the C4 claim. -/
def c4Query : String := "last winter"

/-- C4 (code bug): from 2024-01-15 (inside December–February) "last winter"
resolves to 2023-01-15, one full year back, as the claim states; but from
2024-07-01 (any other month) the claim's "January 15 of the current year"
branch instead evaluates `relativedelta(year=..., month=1, day=15) -
datetime.date.today()` and raises TypeError. -/
theorem c4_last_winter :
    processQuery c4Query ⟨2024, 1, 15⟩ (.error ()) none =
      .ok { domain := none, targetDate := some ⟨2023, 1, 15⟩, focus := none,
            originalQuery := c4Query } ∧
    processQuery c4Query ⟨2024, 7, 1⟩ (.error ()) none = .error .typeError := by
  exact ⟨rfl, rfl⟩

/-- C10: when a custom_date is supplied, process_query returns it unchanged as
the target date; the result is a pure record of the domain and focus
extractors applied to the query (the same functions the no-override path
uses), and is independent of the clock and of the inference collaborator, so
neither the pattern cascade nor the inference fallback is consulted. -/
theorem c10_custom_date_override (q : String) (today : Date)
    (llm : Except Unit String) (d : Date) :
    processQuery q today llm (some d) =
      .ok { domain := extractDomain q, targetDate := some d, focus := extractFocus q,
            originalQuery := q } := rfl

/-! ## Claim theorems for content fetch validation -/

/-- C5 counterexample body: 501 filler characters followed by the marker. -/
def c5Body : String := String.mk (List.replicate 501 'a' ++ htmlMarker)

/-- First index at which `pat` occurs in `hay` (Python's str.find). -/
def firstIdxOf : List Char → List Char → Option Nat
  | hay, pat =>
    match hay with
    | [] => if pat.isEmpty then some 0 else none
    | _ :: rest =>
      if pat.isPrefixOf hay then some 0
      else (firstIdxOf rest pat).map (fun i => i + 1)

set_option maxRecDepth 8000 in
/-- C5 counterexample: the claim requires the document-root marker "near the
start" of the body, but the code checks containment anywhere. A 506-character
body whose only `<html` marker begins at index 501 — its final five
characters, farther into the body than the 500-character minimum-length
threshold itself — is still returned. -/
theorem c5_marker_position_counterexample :
    getSnapshotContent (.ok 200 c5Body) = some c5Body ∧
      firstIdxOf (lowerChars c5Body.toList) htmlMarker = some 501 ∧
      c5Body.length = 506 := by
  refine ⟨?_, ?_, ?_⟩ <;> decide

/-- C5 (amended): get_snapshot_content returns the fetched body iff the HTTP
status is 200 AND the body length exceeds 500 AND the lowercased body contains
the `<html` marker anywhere (not necessarily near its start); every other
outcome — non-200 status, too-short body (such as one of length 10), missing
marker, or a transport exception — uniformly yields the absent result, never
an exception. -/
theorem c5_content_validation_iff (r : FetchResult) (b : String) :
    getSnapshotContent r = some b ↔
      r = .ok 200 b ∧ 500 < b.length ∧
        containsSub (lowerChars b.toList) htmlMarker = true := by
  constructor
  · intro h
    cases r with
    | exn => exact absurd h (by simp [getSnapshotContent])
    | ok status body =>
      rw [getSnapshotContent] at h
      by_cases hs : (status == 200) = true
      · rw [if_pos hs] at h
        by_cases hv : (!(body == "") && decide (500 < body.length)
            && containsSub (lowerChars body.toList) htmlMarker) = true
        · rw [if_pos hv] at h
          cases h
          have h200 : status = 200 := by simpa using hs
          subst h200
          simp only [Bool.and_eq_true, decide_eq_true_eq] at hv
          exact ⟨rfl, hv.1.2, hv.2⟩
        · rw [if_neg hv] at h
          cases h
      · rw [if_neg hs] at h
        cases h
  · rintro ⟨rfl, hlen, hmark⟩
    rw [getSnapshotContent]
    have hne : (b == "") = false := by
      refine beq_eq_false_iff_ne.mpr ?_
      intro hb
      subst hb
      simp [String.length] at hlen
    simpa [hne, hlen] using hmark

/-! ## Claim theorem for link construction -/

/-- C8: get_wayback_url is a pure, deterministic function of the capture id
and original URL: its output is byte-identical across any two instance
configurations and any two ambient fetch environments, depending only on the
(timestamp, original_url) arguments. -/
theorem c8_wayback_url_pure (cfg1 cfg2 : ClientConfig)
    (env1 env2 : String → String → FetchResult) (timestamp originalUrl : String) :
    getWaybackUrl cfg1 env1 timestamp originalUrl
      = getWaybackUrl cfg2 env2 timestamp originalUrl := rfl

end Wayback
